import Mathlib

/-!
Verification of the CasualNotes infographic pipeline (`src/app.py`).

The embedding models the four logic-bearing functions of the repository:
`safe_clean` (Text Cleaner), `convert_to_professional_schema`
(Schema Normalizer), `fallback_from_text` (Heuristic Fallback Generator),
and the `generate` route (Generation Orchestrator).  Python dictionaries
appearing in the code are modelled as records of optional fields
(`Option` = key present/absent), Python strings as Lean `String`, and the
external collaborators (the remote Gemini client and the standard-library
JSON parser) as an explicit environment record whose fields describe one
request's observable behaviour: success with a text, or a raised
exception (`Except Unit`).
-/

namespace CasualNotes

/-- Python `\s` over the ASCII range: the whitespace class used by
`str.strip()` and by the `\s*` in the sentence-splitting regex. -/
def pyIsSpace (c : Char) : Bool :=
  c = ' ' || c = '\t' || c = '\n' || c = '\r' || c = '\x0b' || c = '\x0c'

/-- Python `str.strip()` on a character list: drop whitespace at both ends. -/
def pyStripList (l : List Char) : List Char :=
  ((l.dropWhile pyIsSpace).reverse.dropWhile pyIsSpace).reverse

/-- Python `str.strip()`. -/
def pyStrip (s : String) : String :=
  String.mk (pyStripList s.data)

/-- Python slice `s[:n]`. -/
def pyTake (n : Nat) (s : String) : String :=
  String.mk (s.data.take n)

/-- Python `str.lower()` (ASCII range, which is all the code uses). -/
def pyLower (s : String) : String :=
  String.mk (s.data.map Char.toLower)

/-- Python `str.upper()` (ASCII range). -/
def pyUpper (s : String) : String :=
  String.mk (s.data.map Char.toUpper)

/-- Is `needle` a prefix of `hay`? (Character lists.) -/
def isPrefixCh : List Char → List Char → Bool
  | [], _ => true
  | _ :: _, [] => false
  | a :: as, b :: bs => a = b && isPrefixCh as bs

/-- Python substring membership `needle in hay` on character lists. -/
def isInfixCh (needle : List Char) : List Char → Bool
  | [] => isPrefixCh needle []
  | l@(_ :: rest) => isPrefixCh needle l || isInfixCh needle rest

/-- Python `needle in hay` on strings. -/
def strIn (needle hay : String) : Bool :=
  isInfixCh needle.data hay.data

/-! ## Data model

A section dictionary.  Every key the code ever reads or writes on a
section is a field; `none` models an absent key. -/

structure Sec where
  role : Option String := none
  type : Option String := none
  text : Option String := none
  color : Option String := none
  emphasis : Option String := none
  visual_weight : Option String := none
deriving Repr, DecidableEq

/-- A top-level document dictionary (parsed model output, normalizer
output, fallback output, and the error results all share this shape). -/
structure Doc where
  title : Option String := none
  layout : Option String := none
  visual_flow : Option String := none
  sections : Option (List Sec) := none
  note : Option String := none
deriving Repr, DecidableEq

/-! ## Text Cleaner (`safe_clean`, src/app.py lines 94-105) -/

/-- The regex pass `re.sub(r"```(?:json)?", "", raw, flags=re.IGNORECASE)`:
scan left to right; at each occurrence of three backticks, also consume a
following `json` (case-insensitively) when present, and drop the match. -/
def stripFencesAux : Nat → List Char → List Char
  | 0, l => l
  | fuel + 1, l =>
    match l with
    | '`' :: '`' :: '`' :: rest =>
      match rest with
      | a :: b :: c :: d :: rest2 =>
        if a.toLower = 'j' && b.toLower = 's' && c.toLower = 'o' && d.toLower = 'n' then
          stripFencesAux fuel rest2
        else
          stripFencesAux fuel rest
      | _ => stripFencesAux fuel rest
    | c :: rest => c :: stripFencesAux fuel rest
    | [] => []

/-- The regex pass, started with enough fuel: every step consumes at least
one character, so `l.length` steps always finish the scan. -/
def stripFences (l : List Char) : List Char :=
  stripFencesAux l.length l

/-- The pass `cleaned.replace("```", "")`: remove every left-to-right
non-overlapping occurrence of three backticks. -/
def removeTicks : List Char → List Char
  | '`' :: '`' :: '`' :: rest => removeTicks rest
  | c :: rest => c :: removeTicks rest
  | [] => []

/-- Python `str.find(c)`: index of the first occurrence, if any. -/
def pyFind (c : Char) (l : List Char) : Option Nat :=
  l.findIdx? (· = c)

/-- Python `str.rfind(c)`: index of the last occurrence, if any. -/
def pyRFind (c : Char) (l : List Char) : Option Nat :=
  match l.reverse.findIdx? (· = c) with
  | none => none
  | some i => some (l.length - 1 - i)

/-- The text remaining after the fence-removal passes and `.strip()`
(the value of the local variable `cleaned` on line 98). -/
def cleanedText (raw : String) : List Char :=
  pyStripList (removeTicks (stripFences raw.data))

/-- `safe_clean`: strip code fences, trim, and slice out the substring
from the first `{` to the last `}` when both exist (Python slice
semantics: an empty string when the first `{` is after the last `}`). -/
def safe_clean (raw : String) : String :=
  let cleaned := cleanedText raw
  match pyFind '{' cleaned, pyRFind '}' cleaned with
  | some first, some last => String.mk ((cleaned.drop first).take (last + 1 - first))
  | _, _ => String.mk cleaned

/-! ## Schema Normalizer (`convert_to_professional_schema`, lines 107-170) -/

/-- Python truthiness of `parsed_data.get("sections")`: `None` (absent key)
and the empty list are falsy. -/
def truthySections : Option (List Sec) → Bool
  | none => false
  | some l => !l.isEmpty

/-- The short-circuit test on line 111:
`"visual_flow" in parsed_data or (parsed_data.get("sections") and
any("role" in section for section in parsed_data["sections"]))`. -/
def targetSignature (d : Doc) : Bool :=
  d.visual_flow.isSome ||
    (truthySections d.sections && (d.sections.getD []).any (fun s => s.role.isSome))

/-- Conversion of one legacy section at position `i` (lines 135-163). -/
def convertSec (i : Nat) (s : Sec) : Sec :=
  let old_type := s.type.getD "box"
  let rew :=
    if (old_type = "box" || old_type = "icon_box") && i = 0 then
      ("main_concept", "primary", "heavy")
    else if old_type = "arrow" || old_type = "connector" then
      ("connector", "tertiary", "light")
    else if old_type = "process" || old_type = "list" then
      ("process_step", "secondary", "medium")
    else
      ("supporting_point", "secondary", "medium")
  { role := some rew.1, type := none, text := some (s.text.getD ""),
    color := some (s.color.getD "blue"), emphasis := some rew.2.1,
    visual_weight := some rew.2.2 }

/-- The `for i, section in enumerate(old_sections)` loop. -/
def convertSections (i : Nat) : List Sec → List Sec
  | [] => []
  | s :: rest => convertSec i s :: convertSections (i + 1) rest

/-- Layout/flow inference from the legacy section types (lines 119-131). -/
def legacyLayout (old_sections : List Sec) : String × String :=
  let section_types := old_sections.map (fun s => s.type.getD "")
  if section_types.contains "arrow" then
    ("process_flow", if old_sections.length ≤ 4 then "left_to_right" else "top_to_bottom")
  else if section_types.any (fun t => strIn "list" t) then
    ("concept_map", "top_to_bottom")
  else if old_sections.length > 4 then
    ("hierarchy", "top_to_bottom")
  else
    ("process_flow", "top_to_bottom")

/-- The full-reconstruction branch of the normalizer (lines 115-170). -/
def reconstruct (d : Doc) : Doc :=
  let old_sections := d.sections.getD []
  let lv := legacyLayout old_sections
  { title := some (d.title.getD "PROFESSIONAL INFOGRAPHIC"),
    layout := some lv.1, visual_flow := some lv.2,
    sections := some (convertSections 0 old_sections), note := none }

/-- `convert_to_professional_schema`: return the input unchanged when it
already carries the target-schema signature, else rebuild it. -/
def convert_to_professional_schema (d : Doc) : Doc :=
  if targetSignature d then d else reconstruct d

/-! ## Heuristic Fallback Generator (`fallback_from_text`, lines 172-235) -/

/-- The fragments produced by `re.split(r'[.\n!?]\s*', user_text)`: each
match is one of the four splitter characters followed by a greedy run of
whitespace. -/
def splitFragsAux : Bool → List Char → List (List Char)
  | _, [] => [[]]
  | skip, c :: rest =>
    if skip && pyIsSpace c then
      splitFragsAux true rest
    else if c = '.' || c = '\n' || c = '!' || c = '?' then
      [] :: splitFragsAux true rest
    else
      match splitFragsAux false rest with
      | f :: fs => (c :: f) :: fs
      | [] => [[c]]

/-- The fragments of `re.split(r'[.\n!?]\s*', user_text)`. -/
def splitFrags (l : List Char) : List (List Char) :=
  splitFragsAux false l

/-- `[s.strip() for s in re.split(...) if s.strip()]`. -/
def sentencesOf (user_text : String) : List String :=
  (splitFrags user_text.data).filterMap (fun f =>
    let t := pyStripList f
    if t.isEmpty then none else some (String.mk t))

/-- The fixed six-colour palette (line 194). -/
def fallbackColors : List String := ["blue", "green", "orange", "red", "purple", "teal"]

/-- Layout choice by keyword scan over the lower-cased input (lines 183-191). -/
def fallbackLayout (user_text : String) : String :=
  let low := pyLower user_text
  if ["vs", "versus", "compare", "comparison", "difference"].any (fun w => strIn w low) then
    "comparison"
  else if ["hierarchy", "priority", "level", "rank", "tier"].any (fun w => strIn w low) then
    "hierarchy"
  else if ["concept", "idea", "central", "core", "main"].any (fun w => strIn w low) then
    "concept_map"
  else
    "process_flow"

/-- The `for i, sentence in enumerate(sentences[1:5], 1)` loop (lines 209-217). -/
def tailSections (layout : String) : Nat → List String → List Sec
  | _, [] => []
  | i, s :: rest =>
    { role := some (if layout = "process_flow" then "process_step" else "supporting_point"),
      type := none, text := some (pyTake 100 s),
      color := some (fallbackColors.getD (i % fallbackColors.length) "blue"),
      emphasis := some "secondary", visual_weight := some "medium" }
      :: tailSections layout (i + 1) rest

/-- `fallback_from_text`: the local heuristic generator. -/
def fallback_from_text (user_text : String) : Doc :=
  let sentences := sentencesOf user_text
  let title0 := pyUpper (pyTake 40 (sentences.headD user_text))
  let title := if title0 = "" then "PROFESSIONAL INFOGRAPHIC" else title0
  let layout := fallbackLayout user_text
  let secs0 : List Sec :=
    match sentences with
    | s0 :: _ =>
      [{ role := some "main_concept", type := none, text := some (pyTake 120 s0),
         color := some (fallbackColors.getD 0 "blue"), emphasis := some "primary",
         visual_weight := some "heavy" }]
    | [] => []
  let secs1 := secs0 ++
    (if sentences.length > 1 then tailSections layout 1 ((sentences.drop 1).take 4) else [])
  let sections :=
    if secs1.isEmpty then
      [{ role := some "main_concept", type := none,
         text := some (if user_text ≠ "" then pyTake 120 user_text
                       else "No meaningful content found."),
         color := some "blue", emphasis := some "primary", visual_weight := some "heavy" }]
    else secs1
  { title := some title, layout := some layout, visual_flow := some "top_to_bottom",
    sections := some sections, note := some "LOCAL FALLBACK - API unavailable" }

/-! ## Generation Orchestrator (`generate`, lines 242-333)

The request body and the two external collaborators (the Gemini client and
the standard-library JSON parser) are modelled explicitly.  `Except Unit`
models "raises an exception"; a raised exception that no inner handler
catches reaches the outermost `except` of `generate`. -/

/-- The shapes of `request.get_json()` outcomes the route distinguishes. -/
inductive Request where
  /-- `request.get_json()` itself raises. -/
  | raisesOnGetJson : Request
  /-- A falsy body (`None`, `{}`, ...): the `if not data` branch. -/
  | falsyData : Request
  /-- A truthy body with no `.get` method (e.g. a JSON list): `data.get` raises. -/
  | nonDictData : Request
  /-- A dict whose `text` value is not a string: `.strip()` raises. -/
  | dictNonStrText : Request
  /-- A dict with an absent (`none`) or string `text` value. -/
  | dictData (t : Option String) : Request

/-- One request's observable behaviour of the external collaborators:
whether a client was configured, what each of the two model calls does
(`.ok` carries `response.text`, which may be `None`), and what
`json.loads` does on any given cleaned string. -/
structure Env where
  client : Bool
  primary : Except Unit (Option String)
  secondary : Except Unit (Option String)
  parse : String → Except Unit Doc

/-- The fixed result for a falsy request body (lines 249-252). -/
def noDataDoc : Doc :=
  { title := some "ERROR",
    sections := some [{ type := some "box", text := some "No data received.",
                        color := some "red" }] }

/-- The fixed input-error result for empty/whitespace text (lines 256-259). -/
def noInputDoc : Doc :=
  { title := some "ERROR",
    sections := some [{ type := some "box", text := some "No input provided.",
                        color := some "red" }] }

/-- The fixed system-error result of the outermost handler (lines 326-333). -/
def systemErrorDoc : Doc :=
  { title := some "SYSTEM ERROR",
    sections := some
      [{ type := some "box", text := some "An unexpected error occurred.",
         color := some "red" },
       { type := some "box", text := some "Please try again or contact support.",
         color := some "orange" }],
    note := some "SYSTEM_ERROR" }

/-- Lines 288-308: clean the raw reply, parse it, validate the required
top-level keys, and normalize; any parse or validation failure is caught
by the inner handlers and falls through to the fallback generator.  The
second component counts remote model calls made so far. -/
def afterRaw (user_text raw : String) (env : Env) (calls : Nat) :
    Except Unit Doc × Nat :=
  match env.parse (safe_clean raw) with
  | .error _ => (.ok (fallback_from_text user_text), calls)
  | .ok parsed =>
    if parsed.title.isSome && parsed.sections.isSome then
      (.ok (convert_to_professional_schema parsed), calls)
    else
      (.ok (fallback_from_text user_text), calls)

/-- The body of the route inside the outermost `try` (lines 245-314).
`.error` means an exception escapes to the outermost handler. -/
def generateBody (req : Request) (env : Env) : Except Unit Doc × Nat :=
  match req with
  | .raisesOnGetJson => (.error (), 0)
  | .falsyData => (.ok noDataDoc, 0)
  | .nonDictData => (.error (), 0)
  | .dictNonStrText => (.error (), 0)
  | .dictData t0 =>
    let user_text := pyStrip (t0.getD "")
    if user_text = "" then (.ok noInputDoc, 0)
    else if env.client then
      match env.primary with
      | .ok txt => afterRaw user_text (txt.getD "") env 1
      | .error _ =>
        match env.secondary with
        | .ok txt => afterRaw user_text (txt.getD "") env 2
        | .error _ => (.ok (fallback_from_text user_text), 2)
    else
      (.ok (fallback_from_text user_text), 0)

/-- The `generate` route: the body wrapped in the outermost handler, which
converts any escaped exception into the fixed system-error result. -/
def generate (req : Request) (env : Env) : Doc × Nat :=
  match generateBody req env with
  | (.ok d, n) => (d, n)
  | (.error _, n) => (systemErrorDoc, n)

/-! ## Reference definitions transcribed from the spec's words

These are NOT taken from the source: they follow the sentences of
spec.md, to be compared with the source-derived definitions above. -/

/-- Spec §4.3, layout selection: "case-insensitive keyword scan over the
entire input text, first match wins in this priority order: comparison
keywords ⇒ comparison; hierarchy keywords ⇒ hierarchy; concept keywords ⇒
concept_map; otherwise default process_flow". -/
def specLayoutChoice (user_text : String) : String :=
  let low := pyLower user_text
  if ["vs", "versus", "compare", "comparison", "difference"].any (fun w => strIn w low) then
    "comparison"
  else if ["hierarchy", "priority", "level", "rank", "tier"].any (fun w => strIn w low) then
    "hierarchy"
  else if ["concept", "idea", "central", "core", "main"].any (fun w => strIn w low) then
    "concept_map"
  else
    "process_flow"

/-- Spec §4.2, mapping of one legacy section "by position and type".
The spec's Legacy Section (§3) always carries a `type`; the spec is
silent on a missing `text` key, so copied-through-or-empty is used. -/
def specMapSec (i : Nat) (s : Sec) : Sec :=
  let ty := s.type.getD ""
  let rew :=
    if (ty = "box" ∨ ty = "icon_box") ∧ i = 0 then
      ("main_concept", "primary", "heavy")
    else if ty = "arrow" ∨ ty = "connector" then
      ("connector", "tertiary", "light")
    else if ty = "process" ∨ ty = "list" then
      ("process_step", "secondary", "medium")
    else
      ("supporting_point", "secondary", "medium")
  { role := some rew.1, type := none, text := some (s.text.getD ""),
    color := some (s.color.getD "blue"), emphasis := some rew.2.1,
    visual_weight := some rew.2.2 }

/-- The positional mapping of a whole legacy section list. -/
def specMapSecs (i : Nat) : List Sec → List Sec
  | [] => []
  | s :: rest => specMapSec i s :: specMapSecs (i + 1) rest

/-- Spec §4.2, layout inference from the legacy section types: arrow ⇒
process_flow with left_to_right when the count is ≤ 4, else top_to_bottom;
any type containing "list" ⇒ concept_map; more than 4 sections ⇒
hierarchy; otherwise the defaults. -/
def specInferLayout (types : List String) (count : Nat) : String × String :=
  if types.contains "arrow" then
    ("process_flow", if count ≤ 4 then "left_to_right" else "top_to_bottom")
  else if types.any (fun t => strIn "list" t) then
    ("concept_map", "top_to_bottom")
  else if count > 4 then
    ("hierarchy", "top_to_bottom")
  else
    ("process_flow", "top_to_bottom")

/-- Spec §4.2, the full reconstruction of a legacy structure. -/
def specNormalize (d : Doc) : Doc :=
  let secs := d.sections.getD []
  let lv := specInferLayout (secs.map (fun s => s.type.getD "")) secs.length
  { title := some (d.title.getD "PROFESSIONAL INFOGRAPHIC"),
    layout := some lv.1, visual_flow := some lv.2,
    sections := some (specMapSecs 0 secs), note := none }

/-! ## Derived notions used by the claims -/

/-- The well-formedness asserted by spec §8's first property: non-empty
title, enumerated layout and visual_flow, at least one section. -/
def WellFormedResult (d : Doc) : Prop :=
  d.title.getD "" ≠ "" ∧
  d.layout.getD "" ∈ (["process_flow", "concept_map", "hierarchy", "comparison"] : List String) ∧
  d.visual_flow.getD "" ∈
    (["top_to_bottom", "left_to_right", "center_radial", "layered"] : List String) ∧
  1 ≤ (d.sections.getD []).length

/-- Number of sections with role `main_concept`. -/
def mainConceptCount (l : List Sec) : Nat :=
  (l.filter (fun s => s.role = some "main_concept")).length

/-- Does the clean-parse-validate phase on reply `raw` end in a caught
failure (and hence in the fallback generator)? -/
def parsePhaseFallsBack (raw : String) (env : Env) : Bool :=
  match env.parse (safe_clean raw) with
  | .error _ => true
  | .ok parsed => !(parsed.title.isSome && parsed.sections.isSome)

/-- Does this environment route a non-empty input to the fallback
generator (no client, both model calls raising, or a reply that fails
parsing or field validation)? -/
def usesFallback (env : Env) : Bool :=
  if env.client then
    match env.primary with
    | .ok txt => parsePhaseFallsBack (txt.getD "") env
    | .error _ =>
      match env.secondary with
      | .ok txt => parsePhaseFallsBack (txt.getD "") env
      | .error _ => true
  else true

/-! ## Concrete fixtures for witnesses and counterexamples -/

/-- The legacy structure of spec §8's worked normalizer example. -/
def exLegacyDoc : Doc :=
  { title := some "T", sections := some [
      { type := some "box", text := some "A" },
      { type := some "arrow", text := some "->" },
      { type := some "list", text := some "B" }] }

/-- The output spec §8 predicts for `exLegacyDoc`: process_flow layout,
left_to_right flow, and the three mapped roles. -/
def exConvertedDoc : Doc :=
  { title := some "T", layout := some "process_flow", visual_flow := some "left_to_right",
    sections := some [
      { role := some "main_concept", text := some "A", color := some "blue",
        emphasis := some "primary", visual_weight := some "heavy" },
      { role := some "connector", text := some "->", color := some "blue",
        emphasis := some "tertiary", visual_weight := some "light" },
      { role := some "process_step", text := some "B", color := some "blue",
        emphasis := some "secondary", visual_weight := some "medium" }] }

/-- A structure already in the target schema (carries `visual_flow` and
`role` keys). -/
def exTargetDoc : Doc :=
  { title := some "T", layout := some "comparison", visual_flow := some "layered",
    sections := some [
      { role := some "main_concept", text := some "A", color := some "teal",
        emphasis := some "primary", visual_weight := some "heavy" }] }

/-- An environment with no configured client whose oracles all raise. -/
def anyEnv : Env :=
  { client := false, primary := .error (), secondary := .error (),
    parse := fun _ => .error () }

/-- A configured client whose two model calls both raise. -/
def failEnv : Env :=
  { client := true, primary := .error (), secondary := .error (),
    parse := fun _ => .error () }

/-- A degenerate but schema-signature-bearing model reply: empty title,
empty section list, a `visual_flow` key. -/
def badParsedDoc : Doc :=
  { title := some "", visual_flow := some "top_to_bottom", sections := some [] }

/-- The raw model reply whose JSON value is `badParsedDoc`. -/
def badRaw : String := "\x7b\"title\":\"\",\"sections\":[],\"visual_flow\":\"top_to_bottom\"\x7d"

/-- A configured client that successfully returns `badRaw`, with
`json.loads` behaving as the real parser does on it. -/
def badEnv : Env :=
  { client := true, primary := .ok (some badRaw), secondary := .error (),
    parse := fun s => if s = badRaw then .ok badParsedDoc else .error () }

end CasualNotes

namespace CasualNotes

/-- C5: the Schema Normalizer is idempotent on target-schema input: a
parsed structure carrying a `visual_flow` key, or with at least one
section carrying a `role` key, is returned unchanged. -/
theorem normalizer_unchanged_on_target_schema (d : Doc)
    (h : d.visual_flow.isSome = true ∨ ∃ s ∈ d.sections.getD [], s.role.isSome = true) :
    convert_to_professional_schema d = d := by
  have hsig : targetSignature d = true := by
    rcases h with h | ⟨s, hs, hrole⟩
    · simp [targetSignature, h]
    · cases hd : d.sections with
      | none => rw [hd] at hs; simp at hs
      | some l =>
        rw [hd] at hs; simp only [Option.getD_some] at hs
        have hne : l.isEmpty = false := by
          cases l with
          | nil => simp at hs
          | cons a as => rfl
        simp only [targetSignature, truthySections, hd, hne, Option.getD_some,
          Bool.not_false, Bool.true_and, Bool.or_eq_true, List.any_eq_true]
        exact Or.inr ⟨s, hs, hrole⟩
  simp [convert_to_professional_schema, hsig]

/-- Witness for C5 at a concrete target-schema structure. -/
theorem normalizer_unchanged_witness :
    convert_to_professional_schema exTargetDoc = exTargetDoc :=
  normalizer_unchanged_on_target_schema exTargetDoc (Or.inl (by decide))

/-- C3: blank (empty or whitespace-only) input returns the fixed
input-error result, and the remote-call count of that execution is zero,
for every environment. -/
theorem generate_blank_input_error (t : String) (env : Env)
    (h : pyStrip t = "") :
    generate (.dictData (some t)) env = (noInputDoc, 0) := by
  simp [generate, generateBody, h]

/-- Witness for C3 at whitespace-only input. -/
theorem generate_blank_input_error_witness :
    generate (.dictData (some "  \n\t ")) anyEnv = (noInputDoc, 0) :=
  generate_blank_input_error "  \n\t " anyEnv (by decide)

/-- C2: `generate` is a total function of the request and environment
(it never propagates an exception), and whenever the orchestration body
raises — an exception escapes every inner handler — the outermost guard
returns exactly the fixed system-error result, whose section list has the
two failure-describing entries. -/
theorem generate_outer_guard (req : Request) (env : Env)
    (h : (generateBody req env).1 = Except.error ()) :
    (generate req env).1 = systemErrorDoc ∧
    (systemErrorDoc.sections.getD []).length = 2 := by
  refine ⟨?_, by decide⟩
  unfold generate
  rcases hb : generateBody req env with ⟨e, n⟩
  rw [hb] at h
  cases e with
  | ok d => simp at h
  | error u => simp

/-- Witness for C2: a truthy non-dict request body raises inside the body
and the guard converts it. -/
theorem generate_outer_guard_witness :
    (generate .nonDictData failEnv).1 = systemErrorDoc ∧
    (systemErrorDoc.sections.getD []).length = 2 :=
  generate_outer_guard .nonDictData failEnv rfl

/-- C4: when a client is configured and both model calls raise, the result
is exactly the Heuristic Fallback Generator's output on the validated
(stripped) user text, and it carries the fallback note. -/
theorem generate_double_model_failure (t : String) (env : Env)
    (hc : env.client = true) (hp : env.primary = Except.error ())
    (hs : env.secondary = Except.error ()) (hne : pyStrip t ≠ "") :
    generate (.dictData (some t)) env = (fallback_from_text (pyStrip t), 2) ∧
    (fallback_from_text (pyStrip t)).note = some "LOCAL FALLBACK - API unavailable" := by
  refine ⟨?_, rfl⟩
  simp [generate, generateBody, hc, hp, hs, hne]

/-- Witness for C4 at concrete input and a double-failure environment. -/
theorem generate_double_model_failure_witness :
    generate (.dictData (some "Boil water. Add tea.")) failEnv =
      (fallback_from_text (pyStrip "Boil water. Add tea."), 2) ∧
    (fallback_from_text (pyStrip "Boil water. Add tea.")).note =
      some "LOCAL FALLBACK - API unavailable" :=
  generate_double_model_failure "Boil water. Add tea." failEnv rfl rfl rfl (by decide)

/-- C7: the fallback layout equals the spec's reference keyword scan on
every input, and the fallback visual_flow is always top_to_bottom. -/
theorem fallback_layout_matches_spec (t : String) :
    (fallback_from_text t).layout = some (specLayoutChoice t) ∧
    (fallback_from_text t).visual_flow = some "top_to_bottom" :=
  ⟨rfl, rfl⟩

end CasualNotes

namespace CasualNotes

theorem mainConceptCount_cons (s : Sec) (l : List Sec) :
    mainConceptCount (s :: l) =
      (if s.role = some "main_concept" then 1 else 0) + mainConceptCount l := by
  simp only [mainConceptCount, List.filter_cons]
  split <;> simp_all
  omega

theorem tailSections_no_main (layout : String) (i : Nat) (l : List String) :
    mainConceptCount (tailSections layout i l) = 0 := by
  induction l generalizing i with
  | nil => rfl
  | cons s rest ih =>
    rw [tailSections, mainConceptCount_cons, ih]
    split <;> simp_all

theorem convertSections_no_main (l : List Sec) (i : Nat) (hi : i ≠ 0) :
    mainConceptCount (convertSections i l) = 0 := by
  induction l generalizing i with
  | nil => rfl
  | cons s rest ih =>
    rw [convertSections, mainConceptCount_cons, ih (i + 1) (by omega)]
    have hd : (decide (i = 0)) = false := by simp [hi]
    simp only [convertSec, hd, Bool.and_false]
    split_ifs <;> simp_all

theorem mainConceptCount_nil : mainConceptCount ([] : List Sec) = 0 := rfl

theorem mainConceptCount_append (l1 l2 : List Sec) :
    mainConceptCount (l1 ++ l2) = mainConceptCount l1 + mainConceptCount l2 := by
  simp [mainConceptCount, List.filter_append]

/-- C9: every fallback result and every full-reconstruction result of the
normalizer contains at most one `main_concept` section. -/
theorem at_most_one_main_concept (t : String) (d : Doc) :
    mainConceptCount ((fallback_from_text t).sections.getD []) ≤ 1 ∧
    mainConceptCount ((reconstruct d).sections.getD []) ≤ 1 := by
  constructor
  · cases hs : sentencesOf t with
    | nil =>
      simp [fallback_from_text, hs, mainConceptCount_cons, mainConceptCount_nil]
    | cons s0 ss =>
      rcases ss with _ | ⟨s1, ss2⟩
      · simp [fallback_from_text, hs, mainConceptCount_cons, mainConceptCount_nil]
      · simp [fallback_from_text, hs, mainConceptCount_cons, mainConceptCount_append,
          mainConceptCount_nil, tailSections_no_main]
  · show mainConceptCount (convertSections 0 (d.sections.getD [])) ≤ 1
    cases hl : d.sections.getD [] with
    | nil => simp [convertSections, mainConceptCount_nil]
    | cons s rest =>
      rw [convertSections, mainConceptCount_cons, convertSections_no_main rest 1 (by omega)]
      split <;> simp

/-- C10: the fallback keyword scan matches substrings, not whole words:
whenever no comparison keyword occurs, an occurrence of "main" (even
inside a longer word) selects concept_map when no hierarchy keyword
occurs, and an occurrence of "level" (even inside a longer word) selects
hierarchy. -/
theorem fallback_substring_keyword_scan (t : String)
    (h1 : (["vs", "versus", "compare", "comparison", "difference"].any
        (fun w => strIn w (pyLower t))) = false) :
    ((["hierarchy", "priority", "level", "rank", "tier"].any
        (fun w => strIn w (pyLower t))) = false →
      strIn "main" (pyLower t) = true →
      (fallback_from_text t).layout = some "concept_map") ∧
    (strIn "level" (pyLower t) = true →
      (fallback_from_text t).layout = some "hierarchy") := by
  have hl : (fallback_from_text t).layout = some (fallbackLayout t) := rfl
  constructor
  · intro h2 h3
    have hc : (["concept", "idea", "central", "core", "main"].any
        (fun w => strIn w (pyLower t))) = true := by
      simp only [List.any_eq_true]
      exact ⟨"main", by simp, h3⟩
    rw [hl]
    simp only [fallbackLayout, h1, h2, hc]
    rfl
  · intro h3
    have hh : (["hierarchy", "priority", "level", "rank", "tier"].any
        (fun w => strIn w (pyLower t))) = true := by
      simp only [List.any_eq_true]
      exact ⟨"level", by simp, h3⟩
    rw [hl]
    simp only [fallbackLayout, h1, hh]
    rfl

/-- Witness for C10: "main" inside "domain", "level" inside "levels". -/
theorem fallback_substring_keyword_witness :
    (fallback_from_text "domain").layout = some "concept_map" ∧
    (fallback_from_text "levels").layout = some "hierarchy" :=
  ⟨(fallback_substring_keyword_scan "domain" (by decide)).1 (by decide) (by decide),
   (fallback_substring_keyword_scan "levels" (by decide)).2 (by decide)⟩

end CasualNotes

namespace CasualNotes

theorem fallback_wellformed (u : String) : WellFormedResult (fallback_from_text u) := by
  refine ⟨?_, ?_, ?_, ?_⟩
  · show (Option.getD (fallback_from_text u).title "") ≠ ""
    simp only [fallback_from_text, Option.getD_some]
    split
    · decide
    · assumption
  · show (Option.getD (fallback_from_text u).layout "") ∈ _
    have : (fallback_from_text u).layout = some (fallbackLayout u) := rfl
    rw [this, Option.getD_some]
    simp only [fallbackLayout]
    split_ifs <;> simp
  · show (Option.getD (fallback_from_text u).visual_flow "") ∈ _
    have : (fallback_from_text u).visual_flow = some "top_to_bottom" := rfl
    rw [this]
    simp
  · cases hs : sentencesOf u with
    | nil => simp [fallback_from_text, hs]
    | cons s0 ss => simp [fallback_from_text, hs]

theorem generate_eq_fallback (t : String) (env : Env)
    (hne : pyStrip t ≠ "") (hfb : usesFallback env = true) :
    (generate (.dictData (some t)) env).1 = fallback_from_text (pyStrip t) := by
  cases hc : env.client with
  | false => simp [generate, generateBody, hne, hc]
  | true =>
    cases hp : env.primary with
    | ok txt =>
      have hfb2 : parsePhaseFallsBack (txt.getD "") env = true := by
        simpa [usesFallback, hc, hp] using hfb
      cases hparse : env.parse (safe_clean (txt.getD "")) with
      | error e =>
        simp [generate, generateBody, afterRaw, hne, hc, hp, hparse]
      | ok parsed =>
        have hval : (parsed.title.isSome && parsed.sections.isSome) = false := by
          unfold parsePhaseFallsBack at hfb2
          rw [hparse, Bool.not_eq_true'] at hfb2
          exact hfb2
        simp [generate, generateBody, afterRaw, hne, hc, hp, hparse, hval]
    | error e =>
      cases hsec : env.secondary with
      | ok txt =>
        have hfb2 : parsePhaseFallsBack (txt.getD "") env = true := by
          simpa [usesFallback, hc, hp, hsec] using hfb
        cases hparse : env.parse (safe_clean (txt.getD "")) with
        | error e2 =>
          simp [generate, generateBody, afterRaw, hne, hc, hp, hsec, hparse]
        | ok parsed =>
          have hval : (parsed.title.isSome && parsed.sections.isSome) = false := by
            unfold parsePhaseFallsBack at hfb2
            rw [hparse, Bool.not_eq_true'] at hfb2
            exact hfb2
          simp [generate, generateBody, afterRaw, hne, hc, hp, hsec, hparse, hval]
      | error e2 =>
        simp [generate, generateBody, hne, hc, hp, hsec]

/-- C1 (amended): for every non-empty, non-whitespace user text, on every
execution that the orchestrator routes to the Heuristic Fallback
Generator (no configured client, both model calls raising, or a reply
failing the parse/validation phase), the result has a non-empty title, a
layout and a visual_flow from the two four-value enumerations, and at
least one section.  (The unamended claim fails when a model reply that
already carries the target-schema signature is returned as-is: see the
counterexample.) -/
theorem generate_wellformed_on_fallback_paths (t : String) (env : Env)
    (hne : pyStrip t ≠ "") (hfb : usesFallback env = true) :
    WellFormedResult ((generate (.dictData (some t)) env).1) := by
  rw [generate_eq_fallback t env hne hfb]
  exact fallback_wellformed _

/-- Witness for the amended C1 at concrete input with no configured client. -/
theorem generate_wellformed_witness :
    WellFormedResult ((generate (.dictData (some "Plan the day")) anyEnv).1) :=
  generate_wellformed_on_fallback_paths "Plan the day" anyEnv (by decide) rfl

/-- Counterexample to C1 as stated: with a configured client returning a
degenerate reply that already carries the target-schema signature, the
normalizer short-circuits and `generate` returns an empty title, no
layout key at all, and an empty section list. -/
theorem generate_wellformed_counterexample :
    (generate (.dictData (some "hello")) badEnv).1.title = some "" ∧
    (generate (.dictData (some "hello")) badEnv).1.layout = none ∧
    ((generate (.dictData (some "hello")) badEnv).1.sections.getD []).length = 0 := by
  decide

end CasualNotes

namespace CasualNotes

theorem convertSec_eq_specMapSec (i : Nat) (s : Sec) (h : s.type.isSome = true) :
    convertSec i s = specMapSec i s := by
  obtain ⟨ty, hty⟩ := Option.isSome_iff_exists.mp h
  simp only [convertSec, specMapSec, hty, Option.getD_some, Bool.and_eq_true,
    Bool.or_eq_true, decide_eq_true_eq]

theorem convertSections_eq_specMapSecs (l : List Sec) (i : Nat)
    (h : ∀ s ∈ l, s.type.isSome = true) :
    convertSections i l = specMapSecs i l := by
  induction l generalizing i with
  | nil => rfl
  | cons s rest ih =>
    rw [convertSections, specMapSecs, convertSec_eq_specMapSec i s (h s (by simp)),
      ih (i + 1) (fun x hx => h x (by simp [hx]))]

/-- C6: on every legacy-shaped structure (no `visual_flow` key, no section
with a `role` key, each section carrying the `type` a Legacy Section has
per spec §3), the normalizer's reconstruction equals the spec's reference
definition; in particular spec §8's worked example produces exactly the
predicted structure. -/
theorem normalizer_legacy_matches_spec :
    (∀ d : Doc, d.visual_flow = none →
      (∀ s ∈ d.sections.getD [], s.role = none) →
      (∀ s ∈ d.sections.getD [], s.type.isSome = true) →
      convert_to_professional_schema d = specNormalize d) ∧
    convert_to_professional_schema exLegacyDoc = exConvertedDoc := by
  constructor
  · intro d hvf hrole hty
    have hsig : targetSignature d = false := by
      simp only [targetSignature, hvf, Option.isSome_none, Bool.false_or,
        Bool.and_eq_false_iff]
      cases hd : d.sections with
      | none => left; rfl
      | some l =>
        right
        rw [List.any_eq_false]
        intro s hs
        have : s.role = none := hrole s (by rw [hd]; exact hs)
        simp [this]
    unfold convert_to_professional_schema
    rw [hsig]
    simp only [Bool.false_eq_true, if_false]
    simp only [reconstruct, specNormalize]
    rw [convertSections_eq_specMapSecs _ 0 hty]
    rfl
  · decide

/-- Witness for C6's universally quantified part at the worked example. -/
theorem normalizer_legacy_matches_spec_witness :
    convert_to_professional_schema exLegacyDoc = specNormalize exLegacyDoc :=
  normalizer_legacy_matches_spec.1 exLegacyDoc (by decide) (by decide) (by decide)

theorem pyFind_mem {c : Char} {cl : List Char} (h : c ∈ cl) :
    ∃ f, pyFind c cl = some f ∧ cl[f]? = some c ∧ c ∉ cl.take f := by
  have hsome : (cl.findIdx? (fun x => x = c)).isSome = true := by
    rw [List.findIdx?_isSome, List.any_eq_true]
    exact ⟨c, h, by simp⟩
  obtain ⟨f, hf⟩ := Option.isSome_iff_exists.mp hsome
  obtain ⟨hlt, hpf, hbefore⟩ := List.findIdx?_eq_some_iff_getElem.mp hf
  refine ⟨f, hf, ?_, ?_⟩
  · rw [List.getElem?_eq_getElem hlt]
    simpa using hpf
  · intro hmem
    rw [List.mem_take_iff_getElem] at hmem
    obtain ⟨j, hj, hje⟩ := hmem
    have hjf : j < f := lt_of_lt_of_le hj (min_le_left _ _)
    exact hbefore j hjf (by simp [hje])

theorem pyRFind_mem {c : Char} {cl : List Char} (h : c ∈ cl) :
    ∃ l, pyRFind c cl = some l ∧ cl[l]? = some c ∧ c ∉ cl.drop (l + 1) := by
  have hrev : c ∈ cl.reverse := by simpa using h
  have hsome : (cl.reverse.findIdx? (fun x => x = c)).isSome = true := by
    rw [List.findIdx?_isSome, List.any_eq_true]
    exact ⟨c, hrev, by simp⟩
  obtain ⟨i, hi⟩ := Option.isSome_iff_exists.mp hsome
  obtain ⟨hlt, hpi, hbefore⟩ := List.findIdx?_eq_some_iff_getElem.mp hi
  have hlen : i < cl.length := by simpa using hlt
  refine ⟨cl.length - 1 - i, ?_, ?_, ?_⟩
  · unfold pyRFind
    rw [hi]
  · rw [List.getElem?_eq_getElem (show cl.length - 1 - i < cl.length by omega)]
    rw [← List.getElem_reverse hlt]
    simpa using hpi
  · intro hmem
    have h2 : c ∈ (cl.drop (cl.length - 1 - i + 1)).reverse := by simpa using hmem
    rw [List.reverse_drop] at h2
    have hidx : cl.length - (cl.length - 1 - i + 1) = i := by omega
    rw [hidx] at h2
    rw [List.mem_take_iff_getElem] at h2
    obtain ⟨j, hj, hje⟩ := h2
    have hji : j < i := lt_of_lt_of_le hj (min_le_left _ _)
    exact hbefore j hji (by simp [hje])

/-- C8: the Text Cleaner removes code fences, trims, and then: when a `{`
and a `}` both occur in the remaining text, it returns the Python slice
from the first `{` to the last `}` inclusive (characterised here by
first/last occurrence properties); otherwise the trimmed text unchanged;
and the spec §8 example cleans to exactly its embedded JSON object. -/
theorem safe_clean_brace_extraction (raw : String) :
    (('{' ∈ cleanedText raw ∧ '}' ∈ cleanedText raw) →
      ∃ f l, (cleanedText raw)[f]? = some '{' ∧ '{' ∉ (cleanedText raw).take f ∧
        (cleanedText raw)[l]? = some '}' ∧ '}' ∉ (cleanedText raw).drop (l + 1) ∧
        safe_clean raw = String.mk (((cleanedText raw).drop f).take (l + 1 - f))) ∧
    (('{' ∉ cleanedText raw ∨ '}' ∉ cleanedText raw) →
      safe_clean raw = String.mk (cleanedText raw)) ∧
    safe_clean "```json\n\x7b\"a\":1\x7d\n```" = "\x7b\"a\":1\x7d" := by
  refine ⟨?_, ?_, by decide⟩
  · rintro ⟨hob, hcb⟩
    obtain ⟨f, hf, hgf, htf⟩ := pyFind_mem hob
    obtain ⟨l, hl, hgl, hdl⟩ := pyRFind_mem hcb
    exact ⟨f, l, hgf, htf, hgl, hdl, by simp [safe_clean, hf, hl]⟩
  · intro hdisj
    rcases hdisj with h1 | h2
    · have hn : pyFind '{' (cleanedText raw) = none := by
        unfold pyFind
        rw [List.findIdx?_eq_none_iff]
        intro x hx
        simp only [decide_eq_false_iff_not]
        rintro rfl
        exact h1 hx
      cases hr : pyRFind '}' (cleanedText raw) <;> simp [safe_clean, hn, hr]
    · have hn : pyRFind '}' (cleanedText raw) = none := by
        unfold pyRFind
        have : (cleanedText raw).reverse.findIdx? (fun x => x = '}') = none := by
          rw [List.findIdx?_eq_none_iff]
          intro x hx
          simp only [decide_eq_false_iff_not]
          rintro rfl
          exact h2 (by simpa using hx)
        rw [this]
      cases hf : pyFind '{' (cleanedText raw) <;> simp [safe_clean, hn, hf]

/-- Witness for C8 on text with braces and on brace-free text. -/
theorem safe_clean_brace_extraction_witness :
    (∃ f l, (cleanedText "a {b} c")[f]? = some '{' ∧
      '{' ∉ (cleanedText "a {b} c").take f ∧
      (cleanedText "a {b} c")[l]? = some '}' ∧
      '}' ∉ (cleanedText "a {b} c").drop (l + 1) ∧
      safe_clean "a {b} c" = String.mk (((cleanedText "a {b} c").drop f).take (l + 1 - f))) ∧
    safe_clean "plain text" = String.mk (cleanedText "plain text") :=
  ⟨(safe_clean_brace_extraction "a {b} c").1 ⟨by decide, by decide⟩,
   (safe_clean_brace_extraction "plain text").2.1 (Or.inl (by decide))⟩

end CasualNotes
